import Mathlib

/-!
# Verification of the ManusAI chat client's streaming-session state machine

Shallow embedding of the client-side transcript reducer and session
controller implemented in `src/frontend/src/pages/ChatPage.vue`, together
with the outgoing-call shape of `src/frontend/src/api/agent.ts`.

JavaScript objects referenced from several places (the "live tool" object
shared between the transcript and `lastTool`) are modelled by locations
(`ToolLoc`) into the transcript list; in-place mutation of the referenced
object becomes functional replacement at the stored location.
-/

namespace ManusAI

/-- Attachment descriptor. Modelled from the spec: `FileInfo` lives in the
missing `api/file.ts`; the controller only reads its `file_id`. -/
structure FileInfo where
  file_id : String
deriving Repr, DecidableEq

/-- Model of `MessageContent` from `types/message.ts`: text plus timestamp. -/
structure MessageContent where
  content : String
  timestamp : Int
deriving Repr, DecidableEq

/-- Model of `ToolContent` from `types/message.ts`. -/
structure ToolContent where
  tool_call_id : String
  name : String
  function : String
  args : String
  content : Option String
  status : String
  timestamp : Int
deriving Repr, DecidableEq

/-- Model of `StepContent` from `types/message.ts`: a step entry with its nested
tool calls. -/
structure StepContent where
  id : String
  description : String
  status : String
  tools : List ToolContent
deriving Repr, DecidableEq

/-- Model of `AttachmentsContent` from `types/message.ts`. -/
structure AttachmentsContent where
  role : String
  attachments : List FileInfo
deriving Repr, DecidableEq

/-- One transcript entry (`Message` from `types/message.ts`): a tagged
variant whose tag mirrors the `type` field (`user`/`assistant` both use
the `message` constructor with the role as tag). -/
inductive Entry where
  | message (role : String) (c : MessageContent)
  | attachments (c : AttachmentsContent)
  | tool (c : ToolContent)
  | step (c : StepContent)
deriving Repr, DecidableEq

/-- Event payloads. Modelled from the spec: the event type declarations
(`types/event.ts`) are not in the source tree; the field lists follow the
spec's payload table, and every payload carries an `event_id`. -/
structure MessageEventData where
  role : String
  content : String
  timestamp : Int
  attachments : List FileInfo
  event_id : String
deriving Repr, DecidableEq

/-- Payload of a `tool` event (spec payload table). -/
structure ToolEventData where
  tool_call_id : String
  name : String
  function : String
  args : String
  content : Option String
  status : String
  timestamp : Int
  event_id : String
deriving Repr, DecidableEq

/-- Payload of a `step` event (spec payload table). -/
structure StepEventData where
  id : String
  description : String
  status : String
  event_id : String
deriving Repr, DecidableEq

/-- Payload of an `error` event (spec payload table). -/
structure ErrorEventData where
  error : String
  timestamp : Int
  event_id : String
deriving Repr, DecidableEq

/-- Payload of a `title` event (spec payload table). -/
structure TitleEventData where
  title : String
  event_id : String
deriving Repr, DecidableEq

/-- Payload of a `plan` event (spec payload table); the individual plan
steps are opaque to the controller. -/
structure PlanEventData where
  steps : List String
  event_id : String
deriving Repr, DecidableEq

/-- Model of `AgentSSEEvent`: the discriminated union of stream events
(`{event: Kind, data: Payload}`). `done` and `wait` carry only an
`event_id`. -/
inductive AgentEvent where
  | message (d : MessageEventData)
  | tool (d : ToolEventData)
  | step (d : StepEventData)
  | done (event_id : String)
  | wait (event_id : String)
  | error (d : ErrorEventData)
  | title (d : TitleEventData)
  | plan (d : PlanEventData)
deriving Repr, DecidableEq

/-- Accessor for `event.data.event_id`: every payload carries the resume-cursor id. -/
def AgentEvent.eventId : AgentEvent → String
  | .message d => d.event_id
  | .tool d => d.event_id
  | .step d => d.event_id
  | .done i => i
  | .wait i => i
  | .error d => d.event_id
  | .title d => d.event_id
  | .plan d => d.event_id

/-- Location of a tool-call object inside the transcript: either a
top-level `tool` entry at index `i`, or tool `j` nested in the step entry
at index `i`.  Models the JavaScript object reference held by
`lastTool.value`. -/
inductive ToolLoc where
  | top (i : Nat)
  | inStep (i : Nat) (j : Nat)
deriving Repr, DecidableEq

/-- Model of `SessionStatus` from `types/response.ts`. Modelled from the spec:
`status` (enum: PENDING, RUNNING, COMPLETED, FAILED). -/
inductive SessionStatus where
  | pending
  | running
  | completed
  | failed
deriving Repr, DecidableEq

/-- Model of `GetSessionResponse`: status plus the historical event list. Modelled
from the spec: "fetch session (returns status + historical event list)". -/
structure GetSessionResponse where
  status : SessionStatus
  events : List AgentEvent
deriving Repr, DecidableEq

/-- Observable side effects the controller requests from its
collaborators, in order of occurrence. -/
inductive Action where
  | cancelChannel
  | openChannel (resumeCursor : Option String) (message : String)
      (attachments : List String)
  | showToolPanel (tool : ToolContent) (live : Bool)
  | showToast (msg : String)
  | consoleError
  | clearUnread
deriving Repr, DecidableEq

/-- The component state of `ChatPage.vue` (the fields of
`createInitialState`, with `lastTool` stored as a transcript location). -/
structure ChatState where
  inputMessage : String
  isLoading : Bool
  sessionId : Option String
  messages : List Entry
  toolPanelSize : Nat
  realTime : Bool
  follow : Bool
  title : String
  plan : Option PlanEventData
  lastNoMessageTool : Option ToolContent
  lastMessageTool : Option ToolContent
  lastTool : Option ToolLoc
  lastEventId : Option String
  cancelCurrentChat : Bool
  attachments : List FileInfo
deriving Repr, DecidableEq

/-- Model of `createInitialState` from `ChatPage.vue`. -/
def createInitialState : ChatState where
  inputMessage := ""
  isLoading := false
  sessionId := none
  messages := []
  toolPanelSize := 0
  realTime := true
  follow := true
  title := "New Chat"
  plan := none
  lastNoMessageTool := none
  lastMessageTool := none
  lastTool := none
  lastEventId := none
  cancelCurrentChat := false
  attachments := []

/-- JavaScript falsiness of a `string | undefined` value
(`!sessionId.value`). -/
def isFalsyStr : Option String → Bool
  | none => true
  | some s => s = ""

/-- Truthiness of `message.trim()` in JavaScript: the trimmed string is
non-empty exactly when some character is not whitespace. -/
def strTrimNonempty (msg : String) : Bool :=
  msg.data.any (fun c => !c.isWhitespace)

/-- The tool-call object at a location, if the location is inhabited. -/
def toolAt (msgs : List Entry) : ToolLoc → Option ToolContent
  | .top i =>
    match msgs[i]? with
    | some (.tool c) => some c
    | _ => none
  | .inStep i j =>
    match msgs[i]? with
    | some (.step st) => st.tools[j]?
    | _ => none

/-- Replace the tool-call object at a location (models
`Object.assign(lastTool.value, toolContent)` on the shared object). -/
def setToolAt (msgs : List Entry) (L : ToolLoc) (c : ToolContent) :
    List Entry :=
  match L with
  | .top i =>
    match msgs[i]? with
    | some (.tool _) => msgs.set i (.tool c)
    | _ => msgs
  | .inStep i j =>
    match msgs[i]? with
    | some (.step st) => msgs.set i (.step { st with tools := st.tools.set j c })
    | _ => msgs

/-- Model of `getLastStep`: index and content of the most recent `step` entry
(`messages.filter(m => m.type === 'step').pop()`). -/
def getLastStep : List Entry → Option (Nat × StepContent)
  | [] => none
  | e :: rest =>
    match getLastStep rest with
    | some (i, st) => some (i + 1, st)
    | none =>
      match e with
      | .step st => some (0, st)
      | _ => none

/-- The `ToolContent` spread `{...toolData}` built in `handleToolEvent`. -/
def ToolEventData.toContent (d : ToolEventData) : ToolContent where
  tool_call_id := d.tool_call_id
  name := d.name
  function := d.function
  args := d.args
  content := d.content
  status := d.status
  timestamp := d.timestamp

/-- Placement of a fresh (non-duplicate) tool call: append to the last
step's tool list when that step is running, else append a top-level
entry; either way the appended object becomes the tracked live tool. -/
def placeNew (msgs : List Entry) (c : ToolContent) :
    List Entry × Option ToolLoc :=
  match getLastStep msgs with
  | some (i, st) =>
    if st.status = "running" then
      (msgs.set i (.step { st with tools := st.tools ++ [c] }),
       some (.inStep i st.tools.length))
    else
      (msgs ++ [.tool c], some (.top msgs.length))
  | none => (msgs ++ [.tool c], some (.top msgs.length))

/-- Placement logic of `handleToolEvent`: if the incoming id matches the
tracked live tool, update that object in place; otherwise place it as a
fresh entry. -/
def placeTool (msgs : List Entry) (lastTool : Option ToolLoc)
    (c : ToolContent) : List Entry × Option ToolLoc :=
  match lastTool with
  | some L =>
    if (toolAt msgs L).map ToolContent.tool_call_id = some c.tool_call_id then
      (setToolAt msgs L c, some L)
    else placeNew msgs c
  | none => placeNew msgs c

/-- Model of `handleMessageEvent`: append a role-tagged message entry, plus an
attachments entry when the payload carries a non-empty attachment list. -/
def handleMessageEvent (s : ChatState) (d : MessageEventData) : ChatState :=
  let s1 := { s with
    messages := s.messages ++ [.message d.role ⟨d.content, d.timestamp⟩] }
  if d.attachments.length > 0 then
    { s1 with
      messages := s1.messages ++ [.attachments ⟨d.role, d.attachments⟩] }
  else s1

/-- Model of `handleToolEvent`: dedup/merge against the live tool, step nesting,
live-tool tracking, and the real-time inspector notification for
non-`message` tools. -/
def handleToolEvent (s : ChatState) (d : ToolEventData) :
    ChatState × List Action :=
  let c := d.toContent
  let p := placeTool s.messages s.lastTool c
  let s1 := { s with messages := p.1, lastTool := p.2 }
  if c.name ≠ "message" then
    ({ s1 with lastNoMessageTool := some c },
     if s.realTime then [.showToolPanel c true] else [])
  else (s1, [])

/-- Model of `handleStepEvent`: `running` appends a fresh step entry with an empty
tool list; `completed` mutates the most recent step entry's status in
place; `failed` stops the loading indicator. -/
def handleStepEvent (s : ChatState) (d : StepEventData) : ChatState :=
  if d.status = "running" then
    { s with messages := s.messages ++
        [.step { id := d.id, description := d.description,
                 status := d.status, tools := [] }] }
  else if d.status = "completed" then
    match getLastStep s.messages with
    | some (i, st) =>
      { s with messages := s.messages.set i (.step { st with status := d.status }) }
    | none => s
  else if d.status = "failed" then
    { s with isLoading := false }
  else s

/-- Model of `handleErrorEvent`: stop loading and append an assistant-typed entry
carrying the error text. -/
def handleErrorEvent (s : ChatState) (d : ErrorEventData) : ChatState :=
  { s with
    isLoading := false
    messages := s.messages ++ [.message "assistant" ⟨d.error, d.timestamp⟩] }

/-- Model of `handleTitleEvent`: replace the display title. -/
def handleTitleEvent (s : ChatState) (d : TitleEventData) : ChatState :=
  { s with title := d.title }

/-- Model of `handlePlanEvent`: replace the plan snapshot wholesale. -/
def handlePlanEvent (s : ChatState) (d : PlanEventData) : ChatState :=
  { s with plan := some d }

/-- Model of `handleEvent`: dispatch on the event kind (`done` and `wait` have no
handler body), then unconditionally advance `lastEventId` to the event's
own id. -/
def handleEvent (s : ChatState) (e : AgentEvent) : ChatState × List Action :=
  let r : ChatState × List Action :=
    match e with
    | .message d => (handleMessageEvent s d, [])
    | .tool d => handleToolEvent s d
    | .step d => (handleStepEvent s d, [])
    | .done _ => (s, [])
    | .wait _ => (s, [])
    | .error d => (handleErrorEvent s d, [])
    | .title d => (handleTitleEvent s d, [])
    | .plan d => (handlePlanEvent s d, [])
  ({ r.1 with lastEventId := some e.eventId }, r.2)

/-- Fold a list of events through `handleEvent`, collecting the requested
side effects in order. -/
def foldEvents (s : ChatState) : List AgentEvent → ChatState × List Action
  | [] => (s, [])
  | e :: rest =>
    let r := handleEvent s e
    let r2 := foldEvents r.1 rest
    (r2.1, r.2 ++ r2.2)

/-- The synchronous body of `chat(message, files)` up to and including the
channel open issued by `agentApi.chatWithSession`: early return on a falsy
session id; cancel and null any stored channel handle; optimistically
append the user message (and attachments) entries; force follow mode,
clear the input, set loading; open the new channel with the current
`lastEventId` as resume cursor.  `now` is `Math.floor(Date.now() / 1000)`.
The stored handle after a successful open is `cancelCurrentChat = true`. -/
def chat (s : ChatState) (message : String) (files : List FileInfo)
    (now : Int) : ChatState × List Action :=
  if isFalsyStr s.sessionId then (s, [])
  else
    let cancelActs : List Action :=
      if s.cancelCurrentChat then [.cancelChannel] else []
    let s1 := { s with cancelCurrentChat := false }
    let s2 :=
      if strTrimNonempty message then
        { s1 with messages := s1.messages ++ [.message "user" ⟨message, now⟩] }
      else s1
    let s3 :=
      if files.length > 0 then
        { s2 with messages := s2.messages ++
            [.attachments ⟨"user", files⟩] }
      else s2
    let s4 := { s3 with follow := true, inputMessage := "", isLoading := true }
    ({ s4 with cancelCurrentChat := true },
     cancelActs ++
       [.openChannel s4.lastEventId message (files.map FileInfo.file_id)])

/-- The `onOpen` callback passed to `chatWithSession`. -/
def chatOnOpen (s : ChatState) : ChatState :=
  { s with isLoading := true }

/-- The `onClose` callback: stop loading, clear the stored handle. -/
def chatOnClose (s : ChatState) : ChatState :=
  { s with isLoading := false, cancelCurrentChat := false }

/-- The `onError` callback: log to the console, stop loading, clear the
stored handle; the transcript is not touched. -/
def chatOnError (s : ChatState) : ChatState × List Action :=
  ({ s with isLoading := false, cancelCurrentChat := false },
   [.consoleError])

/-- The `catch` branch around the channel open. -/
def chatCatch (s : ChatState) : ChatState × List Action :=
  ({ s with isLoading := false, cancelCurrentChat := false },
   [.consoleError])

/-- Model of `restoreSession()`, with the fetched `GetSessionResponse` passed in:
toast on a falsy session id; otherwise disable real-time mode, replay the
historical events through `handleEvent`, re-enable real-time mode, re-attach
via an empty `chat()` when the session is RUNNING or PENDING, and clear the
unread counter. -/
def restoreSession (s : ChatState) (resp : GetSessionResponse) (now : Int) :
    ChatState × List Action :=
  if isFalsyStr s.sessionId then (s, [.showToast "Session not found"])
  else
    let r := foldEvents { s with realTime := false } resp.events
    let s2 := { r.1 with realTime := true }
    let r2 :=
      if resp.status = SessionStatus.running ∨
          resp.status = SessionStatus.pending then
        chat s2 "" [] now
      else (s2, [])
    (r2.1, r.2 ++ r2.2 ++ [.clearUnread])

/-- Model of `resetState`: cancel any existing channel, then reassign the initial
state (used by the `onBeforeRouteUpdate` navigation hook). -/
def resetState (s : ChatState) : ChatState × List Action :=
  (createInitialState,
   if s.cancelCurrentChat then [.cancelChannel] else [])

/-- The `onUnmounted` teardown hook: cancel and null any stored handle. -/
def onUnmounted (s : ChatState) : ChatState × List Action :=
  if s.cancelCurrentChat then
    ({ s with cancelCurrentChat := false }, [.cancelChannel])
  else (s, [])

/-- Model of `isLastNoMessageTool`: id comparison against the tracked last
non-`message` tool (comparison against `undefined` is false). -/
def isLastNoMessageTool (s : ChatState) (tool : ToolContent) : Bool :=
  match s.lastNoMessageTool with
  | some lt => tool.tool_call_id = lt.tool_call_id
  | none => false

/-- Model of `isLiveTool`: a tool is live when it is still calling, or when it is
the tracked last non-`message` tool and `tool.timestamp > Date.now() -
5 * 60 * 1000`.  `nowMs` is `Date.now()` in milliseconds. -/
def isLiveTool (s : ChatState) (tool : ToolContent) (nowMs : Int) : Bool :=
  if tool.status = "calling" then true
  else if ¬ isLastNoMessageTool s tool then false
  else if tool.timestamp > nowMs - 5 * 60 * 1000 then true
  else false

/-- Model of `handleToolClick`: leave real-time mode and pin the inspector to the
clicked tool with its computed live flag (when a session id is set). -/
def handleToolClick (s : ChatState) (tool : ToolContent) (nowMs : Int) :
    ChatState × List Action :=
  let s1 := { s with realTime := false }
  if isFalsyStr s1.sessionId then (s1, [])
  else (s1, [.showToolPanel tool (isLiveTool s1 tool nowMs)])

/-- Number of transcript entries (top-level or nested in a step) carrying
a given `tool_call_id`. -/
def entryToolCount (X : String) : Entry → Nat
  | .tool c => if c.tool_call_id = X then 1 else 0
  | .step st => (st.tools.filter (fun t => t.tool_call_id = X)).length
  | _ => 0

/-- Total number of tool-call entries for an id across the transcript. -/
def countToolEntries (msgs : List Entry) (X : String) : Nat :=
  (msgs.map (entryToolCount X)).sum

/-- The id of the tracked live tool, read through its location. -/
def lastToolIdOf (s : ChatState) : Option String :=
  s.lastTool.bind fun L => (toolAt s.messages L).map ToolContent.tool_call_id

/-! ## List helper lemmas -/

theorem sum_map_set {α : Type} (f : α → Nat) :
    ∀ (l : List α) (i : Nat) (a b : α), l[i]? = some a →
      ((l.set i b).map f).sum + f a = (l.map f).sum + f b := by
  intro l
  induction l with
  | nil => intro i a b h; simp at h
  | cons x xs ih =>
    intro i a b h
    cases i with
    | zero =>
      simp at h
      subst h
      simp
      omega
    | succ n =>
      simp at h
      have hx := ih n a b h
      simp only [List.set_cons_succ, List.map_cons, List.sum_cons]
      omega

theorem getElem?_set_self' {α : Type} :
    ∀ (l : List α) (i : Nat) (a b : α), l[i]? = some a →
      (l.set i b)[i]? = some b := by
  intro l
  induction l with
  | nil => intro i a b h; simp at h
  | cons x xs ih =>
    intro i a b h
    cases i with
    | zero => simp [List.set]
    | succ n =>
      simp at h
      simpa [List.set] using ih n a b h

theorem getElem?_append_len {α : Type} (l : List α) (x : α) :
    (l ++ [x])[l.length]? = some x := by
  induction l with
  | nil => simp
  | cons y ys ih => simpa using ih

theorem length_filter_sum {α : Type} (p : α → Bool) (l : List α) :
    (l.filter p).length = (l.map fun a => if p a then 1 else 0).sum := by
  induction l with
  | nil => simp
  | cons x xs ih =>
    by_cases h : p x <;> simp [List.filter_cons, h, ih] <;> omega

theorem filter_length_set_same {α : Type} (p : α → Bool) :
    ∀ (l : List α) (j : Nat) (c' c : α), l[j]? = some c' → p c' = p c →
      ((l.set j c).filter p).length = (l.filter p).length := by
  intro l j c' c h hp
  have hs := sum_map_set (fun a => if p a then 1 else 0) l j c' c h
  simp only [hp] at hs
  rw [length_filter_sum, length_filter_sum]
  omega

/-! ## Transcript counting and location lemmas -/

theorem getLastStep_getElem :
    ∀ (msgs : List Entry) (i : Nat) (st : StepContent),
      getLastStep msgs = some (i, st) → msgs[i]? = some (.step st) := by
  intro msgs
  induction msgs with
  | nil => intro i st h; simp [getLastStep] at h
  | cons e rest ih =>
    intro i st h
    cases hr : getLastStep rest with
    | some p =>
      obtain ⟨i0, st0⟩ := p
      simp only [getLastStep, hr, Option.some.injEq, Prod.mk.injEq] at h
      obtain ⟨hi, hst⟩ := h
      subst hi
      subst hst
      simpa using ih i0 st0 hr
    | none =>
      simp only [getLastStep, hr] at h
      cases e with
      | step st' =>
        simp only [Option.some.injEq, Prod.mk.injEq] at h
        obtain ⟨hi, hst⟩ := h
        subst hi
        subst hst
        simp
      | message r c => simp at h
      | attachments c => simp at h
      | tool c => simp at h

theorem countToolEntries_append_tool (msgs : List Entry) (c : ToolContent)
    (X : String) :
    countToolEntries (msgs ++ [.tool c]) X =
      countToolEntries msgs X + (if c.tool_call_id = X then 1 else 0) := by
  simp [countToolEntries, entryToolCount]

theorem countToolEntries_set (msgs : List Entry) (i : Nat) (a b : Entry)
    (X : String) (h : msgs[i]? = some a) :
    countToolEntries (msgs.set i b) X + entryToolCount X a =
      countToolEntries msgs X + entryToolCount X b :=
  sum_map_set (entryToolCount X) msgs i a b h

theorem count_set_tool_same_id (msgs : List Entry) (i : Nat)
    (c' c : ToolContent) (X : String) (h : msgs[i]? = some (.tool c'))
    (hid : c'.tool_call_id = c.tool_call_id) :
    countToolEntries (msgs.set i (.tool c)) X = countToolEntries msgs X := by
  have hs := countToolEntries_set msgs i (.tool c') (.tool c) X h
  simp [entryToolCount, hid] at hs
  omega

theorem count_set_step_set_tool (msgs : List Entry) (i j : Nat)
    (st : StepContent) (c' c : ToolContent) (X : String)
    (h : msgs[i]? = some (.step st)) (hj : st.tools[j]? = some c')
    (hid : c'.tool_call_id = c.tool_call_id) :
    countToolEntries
        (msgs.set i (.step { st with tools := st.tools.set j c })) X =
      countToolEntries msgs X := by
  have hs := countToolEntries_set msgs i (.step st)
      (.step { st with tools := st.tools.set j c }) X h
  have hf : ((st.tools.set j c).filter
        (fun t => t.tool_call_id = X)).length =
      (st.tools.filter (fun t => t.tool_call_id = X)).length := by
    apply filter_length_set_same _ _ _ c' c hj
    simp [hid]
  simp [entryToolCount, hf] at hs
  omega

theorem count_set_step_append (msgs : List Entry) (i : Nat)
    (st : StepContent) (c : ToolContent) (X : String)
    (h : msgs[i]? = some (.step st)) :
    countToolEntries
        (msgs.set i (.step { st with tools := st.tools ++ [c] })) X =
      countToolEntries msgs X + (if c.tool_call_id = X then 1 else 0) := by
  have hs := countToolEntries_set msgs i (.step st)
      (.step { st with tools := st.tools ++ [c] }) X h
  simp [entryToolCount, List.filter_append] at hs
  by_cases hc : c.tool_call_id = X <;> simp [hc] at hs ⊢ <;> omega

theorem toolAt_append_tool (msgs : List Entry) (c : ToolContent) :
    toolAt (msgs ++ [.tool c]) (.top msgs.length) = some c := by
  simp [toolAt, getElem?_append_len]

theorem toolAt_set_step_append (msgs : List Entry) (i : Nat)
    (st : StepContent) (c : ToolContent) (h : msgs[i]? = some (.step st)) :
    toolAt (msgs.set i (.step { st with tools := st.tools ++ [c] }))
        (.inStep i st.tools.length) = some c := by
  simp [toolAt, getElem?_set_self' _ _ _ _ h, getElem?_append_len]

theorem toolAt_setToolAt (msgs : List Entry) (L : ToolLoc)
    (c c' : ToolContent) (h : toolAt msgs L = some c') :
    toolAt (setToolAt msgs L c) L = some c := by
  cases L with
  | top i =>
    rw [toolAt] at h
    cases hg : msgs[i]? with
    | none => rw [hg] at h; simp at h
    | some e =>
      rw [hg] at h
      cases e with
      | tool u => simp [setToolAt, hg, toolAt, getElem?_set_self' _ _ _ _ hg]
      | message r mc => simp at h
      | attachments ac => simp at h
      | step stc => simp at h
  | inStep i j =>
    rw [toolAt] at h
    cases hg : msgs[i]? with
    | none => rw [hg] at h; simp at h
    | some e =>
      rw [hg] at h
      cases e with
      | step stc =>
        simp at h
        simp [setToolAt, hg, toolAt, getElem?_set_self' _ _ _ _ hg,
          getElem?_set_self' _ _ _ _ h]
      | message r mc => simp at h
      | attachments ac => simp at h
      | tool u => simp at h

theorem count_setToolAt_same (msgs : List Entry) (L : ToolLoc)
    (c c' : ToolContent) (X : String) (h : toolAt msgs L = some c')
    (hid : c'.tool_call_id = c.tool_call_id) :
    countToolEntries (setToolAt msgs L c) X = countToolEntries msgs X := by
  cases L with
  | top i =>
    rw [toolAt] at h
    cases hg : msgs[i]? with
    | none => rw [hg] at h; simp at h
    | some e =>
      rw [hg] at h
      cases e with
      | tool u =>
        simp only [Option.some.injEq] at h
        simp only [setToolAt, hg]
        refine count_set_tool_same_id msgs i u c X hg ?_
        rw [h]
        exact hid
      | message r mc => simp at h
      | attachments ac => simp at h
      | step stc => simp at h
  | inStep i j =>
    rw [toolAt] at h
    cases hg : msgs[i]? with
    | none => rw [hg] at h; simp at h
    | some e =>
      rw [hg] at h
      cases e with
      | step stc =>
        simp at h
        simp only [setToolAt, hg]
        exact count_set_step_set_tool msgs i j stc c' c X hg h hid
      | message r mc => simp at h
      | attachments ac => simp at h
      | tool u => simp at h

theorem length_setToolAt (msgs : List Entry) (L : ToolLoc) (c : ToolContent) :
    (setToolAt msgs L c).length = msgs.length := by
  cases L with
  | top i =>
    rw [setToolAt]
    cases hg : msgs[i]? with
    | none => rfl
    | some e => cases e <;> simp
  | inStep i j =>
    rw [setToolAt]
    cases hg : msgs[i]? with
    | none => rfl
    | some e => cases e <;> simp

/-! ## Handler projection and frame lemmas -/

theorem handleToolEvent_fst (s : ChatState) (d : ToolEventData) :
    (handleToolEvent s d).1 =
      { s with
        messages := (placeTool s.messages s.lastTool d.toContent).1
        lastTool := (placeTool s.messages s.lastTool d.toContent).2
        lastNoMessageTool :=
          if d.name ≠ "message" then some d.toContent
          else s.lastNoMessageTool } := by
  by_cases h : d.name = "message" <;>
    simp [handleToolEvent, h, ToolEventData.toContent]

theorem handleToolEvent_snd (s : ChatState) (d : ToolEventData) :
    (handleToolEvent s d).2 =
      if d.name ≠ "message" ∧ s.realTime = true then
        [.showToolPanel d.toContent true]
      else [] := by
  by_cases h : d.name = "message" <;>
    by_cases hr : s.realTime <;>
      simp [handleToolEvent, h, hr, ToolEventData.toContent]

theorem handleMessageEvent_eq (s : ChatState) (d : MessageEventData) :
    handleMessageEvent s d =
      { s with messages :=
          s.messages ++ [.message d.role ⟨d.content, d.timestamp⟩] ++
            (if d.attachments.length > 0 then
              [.attachments ⟨d.role, d.attachments⟩]
            else []) } := by
  by_cases h : d.attachments.length > 0 <;> simp [handleMessageEvent, h]

theorem handleStepEvent_eq (s : ChatState) (d : StepEventData) :
    handleStepEvent s d =
      if d.status = "running" then
        { s with messages := s.messages ++
            [.step { id := d.id, description := d.description,
                     status := d.status, tools := [] }] }
      else if d.status = "completed" then
        match getLastStep s.messages with
        | some (i, st) =>
          { s with messages :=
              s.messages.set i (.step { st with status := d.status }) }
        | none => s
      else if d.status = "failed" then { s with isLoading := false }
      else s := rfl

/-- The dispatch fields of the state (everything the reducer reads or
writes except `realTime`) are independent of `realTime`, which the
reducer itself never writes. -/
theorem handleEvent_fst_realTime (s : ChatState) (e : AgentEvent) (b : Bool) :
    (handleEvent { s with realTime := b } e).1 =
      { (handleEvent s e).1 with realTime := b } := by
  cases e with
  | message d =>
    simp [handleEvent, handleMessageEvent_eq]
  | tool d =>
    simp [handleEvent, handleToolEvent_fst]
  | step d =>
    by_cases h1 : d.status = "running"
    · simp [handleEvent, handleStepEvent_eq, h1]
    · by_cases h2 : d.status = "completed"
      · cases hg : getLastStep s.messages with
        | some p =>
          obtain ⟨i, st⟩ := p
          simp [handleEvent, handleStepEvent_eq, h1, h2, hg]
        | none => simp [handleEvent, handleStepEvent_eq, h1, h2, hg]
      · by_cases h3 : d.status = "failed" <;>
          simp [handleEvent, handleStepEvent_eq, h1, h2, h3]
  | done i => simp [handleEvent]
  | wait i => simp [handleEvent]
  | error d => simp [handleEvent, handleErrorEvent]
  | title d => simp [handleEvent, handleTitleEvent]
  | plan d => simp [handleEvent, handlePlanEvent]

/-- The reducer never changes `realTime`. -/
theorem handleEvent_realTime (s : ChatState) (e : AgentEvent) :
    (handleEvent s e).1.realTime = s.realTime := by
  have h := handleEvent_fst_realTime s e s.realTime
  have hs : { s with realTime := s.realTime } = s := rfl
  rw [hs] at h
  rw [h]

/-- With real-time mode off, the reducer requests no side effects. -/
theorem handleEvent_snd_realTime_false (s : ChatState) (e : AgentEvent)
    (h : s.realTime = false) : (handleEvent s e).2 = [] := by
  cases e with
  | tool d => simp [handleEvent, handleToolEvent_snd, h]
  | message d => rfl
  | step d => rfl
  | done i => rfl
  | wait i => rfl
  | error d => rfl
  | title d => rfl
  | plan d => rfl

theorem foldEvents_fst_realTime (evs : List AgentEvent) :
    ∀ (s : ChatState) (b : Bool),
      (foldEvents { s with realTime := b } evs).1 =
        { (foldEvents s evs).1 with realTime := b } := by
  induction evs with
  | nil => intro s b; rfl
  | cons e rest ih =>
    intro s b
    show (foldEvents (handleEvent { s with realTime := b } e).1 rest).1 = _
    rw [handleEvent_fst_realTime]
    rw [ih]
    rfl

theorem foldEvents_realTime (evs : List AgentEvent) :
    ∀ (s : ChatState), (foldEvents s evs).1.realTime = s.realTime := by
  induction evs with
  | nil => intro s; rfl
  | cons e rest ih =>
    intro s
    show (foldEvents (handleEvent s e).1 rest).1.realTime = _
    rw [ih, handleEvent_realTime]

theorem foldEvents_snd_realTime_false (evs : List AgentEvent) :
    ∀ (s : ChatState), s.realTime = false → (foldEvents s evs).2 = [] := by
  induction evs with
  | nil => intro s _; rfl
  | cons e rest ih =>
    intro s h
    show (handleEvent s e).2 ++ (foldEvents (handleEvent s e).1 rest).2 = []
    rw [handleEvent_snd_realTime_false s e h]
    rw [ih _ (by rw [handleEvent_realTime]; exact h)]
    rfl

/-- The reducer touches neither the session identity nor the controller's
channel handle, input box, follow flag, or pending attachments. -/
theorem handleEvent_frame (s : ChatState) (e : AgentEvent) :
    (handleEvent s e).1.sessionId = s.sessionId ∧
    (handleEvent s e).1.cancelCurrentChat = s.cancelCurrentChat ∧
    (handleEvent s e).1.follow = s.follow ∧
    (handleEvent s e).1.inputMessage = s.inputMessage ∧
    (handleEvent s e).1.attachments = s.attachments := by
  cases e with
  | message d => simp [handleEvent, handleMessageEvent_eq]
  | tool d => simp [handleEvent, handleToolEvent_fst]
  | step d =>
    by_cases h1 : d.status = "running"
    · simp [handleEvent, handleStepEvent_eq, h1]
    · by_cases h2 : d.status = "completed"
      · cases hg : getLastStep s.messages with
        | some p =>
          obtain ⟨i, st⟩ := p
          simp [handleEvent, handleStepEvent_eq, h1, h2, hg]
        | none => simp [handleEvent, handleStepEvent_eq, h1, h2, hg]
      · by_cases h3 : d.status = "failed" <;>
          simp [handleEvent, handleStepEvent_eq, h1, h2, h3]
  | done i => simp [handleEvent]
  | wait i => simp [handleEvent]
  | error d => simp [handleEvent, handleErrorEvent]
  | title d => simp [handleEvent, handleTitleEvent]
  | plan d => simp [handleEvent, handlePlanEvent]

theorem foldEvents_frame (evs : List AgentEvent) :
    ∀ (s : ChatState),
      (foldEvents s evs).1.sessionId = s.sessionId ∧
      (foldEvents s evs).1.cancelCurrentChat = s.cancelCurrentChat := by
  induction evs with
  | nil => intro s; exact ⟨rfl, rfl⟩
  | cons e rest ih =>
    intro s
    show (foldEvents (handleEvent s e).1 rest).1.sessionId = _ ∧
      (foldEvents (handleEvent s e).1 rest).1.cancelCurrentChat = _
    obtain ⟨h1, h2⟩ := ih (handleEvent s e).1
    obtain ⟨g1, g2, _⟩ := handleEvent_frame s e
    exact ⟨h1.trans g1, h2.trans g2⟩

/-- The reducer never starts the loading indicator, and stops it only for
a failed step or an error event. -/
theorem handleEvent_isLoading (s : ChatState) (e : AgentEvent) :
    (handleEvent s e).1.isLoading = s.isLoading ∨
      ((handleEvent s e).1.isLoading = false ∧
        ((∃ d, e = .step d ∧ d.status = "failed") ∨ ∃ d, e = .error d)) := by
  cases e with
  | message d => exact Or.inl (by simp [handleEvent, handleMessageEvent_eq])
  | tool d => exact Or.inl (by simp [handleEvent, handleToolEvent_fst])
  | step d =>
    by_cases h1 : d.status = "running"
    · exact Or.inl (by simp [handleEvent, handleStepEvent_eq, h1])
    · by_cases h2 : d.status = "completed"
      · cases hg : getLastStep s.messages with
        | some p =>
          obtain ⟨i, st⟩ := p
          exact Or.inl (by simp [handleEvent, handleStepEvent_eq, h1, h2, hg])
        | none =>
          exact Or.inl (by simp [handleEvent, handleStepEvent_eq, h1, h2, hg])
      · by_cases h3 : d.status = "failed"
        · refine Or.inr ⟨?_, Or.inl ⟨d, rfl, h3⟩⟩
          simp [handleEvent, handleStepEvent_eq, h1, h2, h3]
        · exact Or.inl (by simp [handleEvent, handleStepEvent_eq, h1, h2, h3])
  | done i => exact Or.inl rfl
  | wait i => exact Or.inl rfl
  | error d => exact Or.inr ⟨by simp [handleEvent, handleErrorEvent], Or.inr ⟨d, rfl⟩⟩
  | title d => exact Or.inl (by simp [handleEvent, handleTitleEvent])
  | plan d => exact Or.inl (by simp [handleEvent, handlePlanEvent])

/-- Full characterization of the synchronous `chat` body when a session
id is present: entries appended (user message only when the trimmed text
is non-empty, attachments only when present), follow forced, input
cleared, loading set, new handle stored; the trace cancels any prior
handle before the single channel open, which carries the current resume
cursor. -/
theorem chat_spec (s : ChatState) (msg : String) (files : List FileInfo)
    (now : Int) (h : isFalsyStr s.sessionId = false) :
    chat s msg files now =
      ({ s with
          messages := s.messages ++
            (if strTrimNonempty msg then [.message "user" ⟨msg, now⟩]
             else []) ++
            (if files.length > 0 then [.attachments ⟨"user", files⟩] else [])
          follow := true
          inputMessage := ""
          isLoading := true
          cancelCurrentChat := true },
       (if s.cancelCurrentChat then [Action.cancelChannel] else []) ++
         [Action.openChannel s.lastEventId msg
           (files.map FileInfo.file_id)]) := by
  by_cases ht : strTrimNonempty msg <;> by_cases hf : files.length > 0 <;>
    by_cases hc : s.cancelCurrentChat <;> simp [chat, h, ht, hf, hc]

/-- Closed form of `restoreSession` when a session id is present. -/
theorem restoreSession_eq (s : ChatState) (resp : GetSessionResponse)
    (now : Int) (h : isFalsyStr s.sessionId = false) :
    restoreSession s resp now =
      ((if resp.status = SessionStatus.running ∨
            resp.status = SessionStatus.pending then
          { (foldEvents { s with realTime := false } resp.events).1 with
              realTime := true
              follow := true
              inputMessage := ""
              isLoading := true
              cancelCurrentChat := true }
        else
          { (foldEvents { s with realTime := false } resp.events).1 with
              realTime := true }),
       (if resp.status = SessionStatus.running ∨
            resp.status = SessionStatus.pending then
          (if s.cancelCurrentChat then [Action.cancelChannel] else []) ++
            [Action.openChannel
              (foldEvents { s with realTime := false } resp.events).1.lastEventId
              "" []]
        else []) ++ [Action.clearUnread]) := by
  have hsid : (foldEvents { s with realTime := false } resp.events).1.sessionId
      = s.sessionId := (foldEvents_frame _ _).1
  have hcc :
      (foldEvents { s with realTime := false } resp.events).1.cancelCurrentChat
      = s.cancelCurrentChat := (foldEvents_frame _ _).2
  have hacts : (foldEvents { s with realTime := false } resp.events).2 = [] :=
    foldEvents_snd_realTime_false _ _ rfl
  have hne : ¬ (isFalsyStr s.sessionId = true) := by simp [h]
  by_cases hst : resp.status = SessionStatus.running ∨
      resp.status = SessionStatus.pending
  · have hchat := chat_spec
      { (foldEvents { s with realTime := false } resp.events).1 with
          realTime := true } "" [] now (by simp [hsid, h])
    rw [restoreSession, if_neg hne]
    show ((if resp.status = SessionStatus.running ∨
            resp.status = SessionStatus.pending then
          chat { (foldEvents { s with realTime := false } resp.events).1 with
              realTime := true } "" [] now
        else
          ({ (foldEvents { s with realTime := false } resp.events).1 with
              realTime := true }, [])).1,
      (foldEvents { s with realTime := false } resp.events).2 ++
        (if resp.status = SessionStatus.running ∨
            resp.status = SessionStatus.pending then
          chat { (foldEvents { s with realTime := false } resp.events).1 with
              realTime := true } "" [] now
        else
          ({ (foldEvents { s with realTime := false } resp.events).1 with
              realTime := true }, [])).2 ++ [Action.clearUnread]) = _
    rw [if_pos hst, if_pos hst, if_pos hst, hchat, hacts]
    have hts : strTrimNonempty "" = false := by decide
    simp [hts, hcc]
  · rw [restoreSession, if_neg hne]
    show ((if resp.status = SessionStatus.running ∨
            resp.status = SessionStatus.pending then
          chat { (foldEvents { s with realTime := false } resp.events).1 with
              realTime := true } "" [] now
        else
          ({ (foldEvents { s with realTime := false } resp.events).1 with
              realTime := true }, [])).1,
      (foldEvents { s with realTime := false } resp.events).2 ++
        (if resp.status = SessionStatus.running ∨
            resp.status = SessionStatus.pending then
          chat { (foldEvents { s with realTime := false } resp.events).1 with
              realTime := true } "" [] now
        else
          ({ (foldEvents { s with realTime := false } resp.events).1 with
              realTime := true }, [])).2 ++ [Action.clearUnread]) = _
    rw [if_neg hst, if_neg hst, if_neg hst, hacts]
    simp

/-- C8: folding an `error` event stops the loading indicator and appends
exactly one assistant-typed entry carrying the error string and the
event's timestamp; in the concrete scenario a user "hi" message followed
by error "boom" yields UserMessage("hi") then AssistantMessage("boom")
with loading false. -/
theorem c8_error_event :
    (∀ (s : ChatState) (d : ErrorEventData),
        handleErrorEvent s d =
          { s with
              isLoading := false
              messages := s.messages ++
                [.message "assistant" ⟨d.error, d.timestamp⟩] }) ∧
    (∀ (m : MessageEventData) (er : ErrorEventData),
        m.role = "user" → m.content = "hi" → m.attachments = [] →
        er.error = "boom" →
        (foldEvents createInitialState [.message m, .error er]).1.messages =
            [.message "user" ⟨"hi", m.timestamp⟩,
             .message "assistant" ⟨"boom", er.timestamp⟩] ∧
          (foldEvents createInitialState
              [.message m, .error er]).1.isLoading = false) := by
  constructor
  · intro s d; rfl
  · intro m er hrole hcontent hatt herr
    constructor
    · simp [foldEvents, handleEvent, handleMessageEvent_eq, handleErrorEvent,
        hrole, hcontent, hatt, herr, createInitialState]
    · simp [foldEvents, handleEvent, handleMessageEvent_eq, handleErrorEvent,
        hatt, createInitialState]

/-- Witness for C8 at concrete payloads. -/
theorem c8_error_event_witness :
    (foldEvents createInitialState
        [.message ⟨"user", "hi", 100, [], "e1"⟩,
         .error ⟨"boom", 200, "e2"⟩]).1.messages =
        [.message "user" ⟨"hi", 100⟩, .message "assistant" ⟨"boom", 200⟩] ∧
      (foldEvents createInitialState
          [.message ⟨"user", "hi", 100, [], "e1"⟩,
           .error ⟨"boom", 200, "e2"⟩]).1.isLoading = false :=
  c8_error_event.2 ⟨"user", "hi", 100, [], "e1"⟩ ⟨"boom", 200, "e2"⟩
    rfl rfl rfl rfl

/-- Concrete state in which the channel's `onError` callback fires: a
session with a stored handle, loading, and one folded entry. -/
def c7ErrState : ChatState :=
  { createInitialState with
      sessionId := some "s1"
      isLoading := true
      cancelCurrentChat := true
      messages := [Entry.message "user" ⟨"hi", 1⟩] }

/-- C7 counterexample: at a concrete state the `onError` callback's only
requested side effect is a console log — it never notifies the
user-visible error-toast collaborator. -/
theorem c7_counterexample :
    (chatOnError c7ErrState).2 = [Action.consoleError] ∧
      ¬ ∃ m, Action.showToast m ∈ (chatOnError c7ErrState).2 := by
  constructor
  · rfl
  · rintro ⟨m, hm⟩
    simp [chatOnError] at hm

/-- C7 amended: on a transport error the controller stops the loading
indicator, nulls the active-channel handle, leaves every already-folded
transcript entry (and all other state) unchanged, and logs the error to
the console — it does not surface it to the error-toast collaborator and
does not throw further. -/
theorem c7_transport_error_amended :
    ∀ s : ChatState,
      chatOnError s =
        ({ s with isLoading := false, cancelCurrentChat := false },
         [Action.consoleError]) :=
  fun _ => rfl

/-! ## Claims -/

/-- C6 counterexample: with an active session, a whitespace-only message
(" ", a non-empty string) appends no UserMessage entry — the code gates
the optimistic append on the trimmed text, not on string non-emptiness. -/
theorem c6_counterexample :
    (chat { createInitialState with sessionId := some "s1" } " " []
        5).1.messages = [] ∧
      " " ≠ "" := by
  constructor
  · decide
  · decide

/-- C6 (amended): `sendMessage` is a no-op without a session id; with
one, for text that is non-empty after trimming it appends the UserMessage
entry (and an AttachmentSet entry when attachments are present) to the
transcript in the state from which the channel open is then issued —
i.e. before the network call — and sets FollowMode and the loading
indicator to true. -/
theorem c6_send_message :
    (∀ (s : ChatState) (msg : String) (files : List FileInfo) (now : Int),
        isFalsyStr s.sessionId = true → chat s msg files now = (s, [])) ∧
    (∀ (s : ChatState) (msg : String) (files : List FileInfo) (now : Int),
        isFalsyStr s.sessionId = false → strTrimNonempty msg = true →
        (chat s msg files now).1.messages =
            s.messages ++ [.message "user" ⟨msg, now⟩] ++
              (if files.length > 0 then [.attachments ⟨"user", files⟩]
               else []) ∧
          (chat s msg files now).1.follow = true ∧
          (chat s msg files now).1.isLoading = true ∧
          (chat s msg files now).2 =
            (if s.cancelCurrentChat then [Action.cancelChannel] else []) ++
              [Action.openChannel s.lastEventId msg
                (files.map FileInfo.file_id)]) := by
  constructor
  · intro s msg files now h
    simp [chat, h]
  · intro s msg files now h ht
    rw [chat_spec s msg files now h]
    simp [ht]

/-- Witness for C6: a concrete send with one attachment. -/
theorem c6_send_message_witness :
    (chat { createInitialState with sessionId := some "s1" } "hello"
          [⟨"f1"⟩] 42).1.messages =
        [Entry.message "user" ⟨"hello", 42⟩,
         Entry.attachments ⟨"user", [⟨"f1"⟩]⟩] ∧
      (chat { createInitialState with sessionId := some "s1" } "hello"
          [⟨"f1"⟩] 42).1.follow = true ∧
      (chat { createInitialState with sessionId := some "s1" } "hello"
          [⟨"f1"⟩] 42).1.isLoading = true ∧
      (chat { createInitialState with sessionId := some "s1" } "hello"
          [⟨"f1"⟩] 42).2 =
        [Action.openChannel none "hello" ["f1"]] := by
  have h := c6_send_message.2
    { createInitialState with sessionId := some "s1" } "hello" [⟨"f1"⟩] 42
    (by decide) (by decide)
  simpa [createInitialState] using h

/-- C5: the controller keeps at most one live channel handle — `chat`
cancels any stored handle before the single channel open it issues (and
stores the new handle), the restore-triggered resume does the same, and
both teardown paths (`onUnmounted`, the route-change `resetState`) cancel
any active handle and leave none stored. -/
theorem c5_single_active_channel :
    (∀ (s : ChatState) (msg : String) (files : List FileInfo) (now : Int),
        isFalsyStr s.sessionId = false →
        (chat s msg files now).2 =
            (if s.cancelCurrentChat then [Action.cancelChannel] else []) ++
              [Action.openChannel s.lastEventId msg
                (files.map FileInfo.file_id)] ∧
          (chat s msg files now).1.cancelCurrentChat = true) ∧
    (∀ (s : ChatState) (resp : GetSessionResponse) (now : Int),
        isFalsyStr s.sessionId = false →
        (restoreSession s resp now).2 =
          (if resp.status = SessionStatus.running ∨
              resp.status = SessionStatus.pending then
            (if s.cancelCurrentChat then [Action.cancelChannel] else []) ++
              [Action.openChannel
                ((foldEvents { s with realTime := false }
                    resp.events).1.lastEventId) "" []]
          else []) ++ [Action.clearUnread]) ∧
    (∀ s : ChatState,
        (onUnmounted s).2 =
            (if s.cancelCurrentChat then [Action.cancelChannel] else []) ∧
          (onUnmounted s).1.cancelCurrentChat = false ∧
          (resetState s).2 =
            (if s.cancelCurrentChat then [Action.cancelChannel] else []) ∧
          (resetState s).1.cancelCurrentChat = false) := by
  refine ⟨fun s msg files now h => ?_, fun s resp now h => ?_, fun s => ?_⟩
  · rw [chat_spec s msg files now h]
    exact ⟨rfl, rfl⟩
  · rw [restoreSession_eq s resp now h]
  · by_cases hc : s.cancelCurrentChat <;>
      simp [onUnmounted, resetState, createInitialState, hc]

/-- Witness for C5: a send while a handle is stored first cancels it,
then opens exactly one new channel, and stores the new handle. -/
theorem c5_single_active_channel_witness :
    (chat { createInitialState with
          sessionId := some "s1"
          cancelCurrentChat := true } "go" [] 7).2 =
        [Action.cancelChannel, Action.openChannel none "go" []] ∧
      (chat { createInitialState with
          sessionId := some "s1"
          cancelCurrentChat := true } "go" [] 7).1.cancelCurrentChat =
        true := by
  have h := c5_single_active_channel.1
    { createInitialState with
        sessionId := some "s1"
        cancelCurrentChat := true } "go" [] 7 (by decide)
  simpa [createInitialState] using h

/-- Fresh placement adds exactly one entry carrying the tool's id, at the
location it reports as the new live tool. -/
theorem placeNew_spec (msgs : List Entry) (c : ToolContent) (X : String)
    (hc : c.tool_call_id = X) :
    countToolEntries (placeNew msgs c).1 X = countToolEntries msgs X + 1 ∧
      ∃ L, (placeNew msgs c).2 = some L ∧
        toolAt (placeNew msgs c).1 L = some c := by
  cases hg : getLastStep msgs with
  | some p =>
    obtain ⟨i, st⟩ := p
    have hmem := getLastStep_getElem msgs i st hg
    by_cases hrun : st.status = "running"
    · refine ⟨?_, ToolLoc.inStep i st.tools.length, ?_, ?_⟩
      · simp only [placeNew, hg, if_pos hrun]
        rw [count_set_step_append msgs i st c X hmem]
        simp [hc]
      · simp [placeNew, hg, hrun]
      · simp only [placeNew, hg, if_pos hrun]
        exact toolAt_set_step_append msgs i st c hmem
    · refine ⟨?_, ToolLoc.top msgs.length, ?_, ?_⟩
      · simp only [placeNew, hg, if_neg hrun]
        rw [countToolEntries_append_tool]
        simp [hc]
      · simp [placeNew, hg, hrun]
      · simp only [placeNew, hg, if_neg hrun]
        exact toolAt_append_tool msgs c
  | none =>
    refine ⟨?_, ToolLoc.top msgs.length, ?_, ?_⟩
    · simp only [placeNew, hg]
      rw [countToolEntries_append_tool]
      simp [hc]
    · simp [placeNew, hg]
    · simp only [placeNew, hg]
      exact toolAt_append_tool msgs c

/-- When the tracked live tool does not carry the incoming id, placement
falls through to fresh placement. -/
theorem placeTool_nomatch (msgs : List Entry) (lt : Option ToolLoc)
    (c : ToolContent) (X : String) (hc : c.tool_call_id = X)
    (hlt : (lt.bind fun L =>
        (toolAt msgs L).map ToolContent.tool_call_id) ≠ some X) :
    placeTool msgs lt c = placeNew msgs c := by
  cases lt with
  | none => rfl
  | some L =>
    have hcond : ¬ ((toolAt msgs L).map ToolContent.tool_call_id =
        some c.tool_call_id) := by
      rw [hc]
      simpa using hlt
    simp [placeTool, hcond]

/-- When the tracked live tool carries the incoming id, the tool event
updates the tracked object in place and keeps tracking it. -/
theorem handleToolEvent_update (s : ChatState) (d : ToolEventData)
    (c0 : ToolContent) (L : ToolLoc) (hL : s.lastTool = some L)
    (hAt : toolAt s.messages L = some c0)
    (hid : c0.tool_call_id = d.tool_call_id) :
    (handleToolEvent s d).1.messages = setToolAt s.messages L d.toContent ∧
      (handleToolEvent s d).1.lastTool = some L := by
  have hcond : (toolAt s.messages L).map ToolContent.tool_call_id =
      some d.toContent.tool_call_id := by
    rw [hAt]
    simp [ToolEventData.toContent, hid]
  have hpt : placeTool s.messages s.lastTool d.toContent =
      (setToolAt s.messages L d.toContent, some L) := by
    rw [hL]
    simp [placeTool, hcond]
  simp [handleToolEvent_fst, hpt]

/-- The dedup invariant is preserved by a further tool event with the
same id: the count stays one and the tracked location holds the new
event's fields. -/
theorem c1_inv_step (s : ChatState) (d : ToolEventData) (X : String)
    (c0 : ToolContent) (hd : d.tool_call_id = X) (hc0 : c0.tool_call_id = X)
    (h1 : countToolEntries s.messages X = 1)
    (h2 : ∃ L, s.lastTool = some L ∧ toolAt s.messages L = some c0) :
    countToolEntries (handleToolEvent s d).1.messages X = 1 ∧
      ∃ L, (handleToolEvent s d).1.lastTool = some L ∧
        toolAt (handleToolEvent s d).1.messages L = some d.toContent := by
  obtain ⟨L, hL, hAt⟩ := h2
  obtain ⟨hm, hlt⟩ := handleToolEvent_update s d c0 L hL hAt
    (by rw [hc0, hd])
  refine ⟨?_, L, hlt, ?_⟩
  · rw [hm]
    rw [count_setToolAt_same s.messages L d.toContent c0 X hAt
      (by simp [ToolEventData.toContent, hc0, hd])]
    exact h1
  · rw [hm]
    exact toolAt_setToolAt s.messages L d.toContent c0 hAt

/-- The dedup invariant is established by the first tool event with a
fresh id. -/
theorem c1_inv_base (s : ChatState) (d : ToolEventData) (X : String)
    (hd : d.tool_call_id = X)
    (h0 : countToolEntries s.messages X = 0)
    (hlt : lastToolIdOf s ≠ some X) :
    countToolEntries (handleToolEvent s d).1.messages X = 1 ∧
      ∃ L, (handleToolEvent s d).1.lastTool = some L ∧
        toolAt (handleToolEvent s d).1.messages L = some d.toContent := by
  have hcE : d.toContent.tool_call_id = X := by
    simp [ToolEventData.toContent, hd]
  have hpt : placeTool s.messages s.lastTool d.toContent =
      placeNew s.messages d.toContent :=
    placeTool_nomatch s.messages s.lastTool d.toContent X hcE
      (by simpa [lastToolIdOf] using hlt)
  obtain ⟨hcount, L, hL, hAt⟩ := placeNew_spec s.messages d.toContent X hcE
  refine ⟨?_, L, ?_, ?_⟩ <;> simp only [handleToolEvent_fst, hpt]
  · rw [hcount, h0]
  · exact hL
  · exact hAt

/-- All tool events in a list share one id, so their last element does. -/
theorem getLastD_id (X : String) :
    ∀ (l : List ToolEventData) (d0 : ToolEventData),
      (∀ d ∈ l, d.tool_call_id = X) → d0.tool_call_id = X →
      (l.getLastD d0).tool_call_id = X := by
  intro l
  induction l with
  | nil => intro d0 _ h0; exact h0
  | cons d rest ih =>
    intro d0 hall _
    rw [List.getLastD_cons]
    exact ih d (fun x hx => hall x (List.mem_cons_of_mem d hx))
      (hall d (List.mem_cons_self _ _))

/-- The dedup invariant is preserved by folding any tail of same-id tool
events, with the tracked content ending at the last event's fields. -/
theorem c1_inv_fold (X : String) :
    ∀ (evs : List ToolEventData) (s : ChatState) (d0 : ToolEventData),
      (∀ d ∈ evs, d.tool_call_id = X) → d0.tool_call_id = X →
      (countToolEntries s.messages X = 1 ∧
        ∃ L, s.lastTool = some L ∧
          toolAt s.messages L = some d0.toContent) →
      countToolEntries
          (foldEvents s (evs.map AgentEvent.tool)).1.messages X = 1 ∧
        ∃ L, (foldEvents s (evs.map AgentEvent.tool)).1.lastTool = some L ∧
          toolAt (foldEvents s (evs.map AgentEvent.tool)).1.messages L =
            some ((evs.getLastD d0).toContent) := by
  intro evs
  induction evs with
  | nil => intro s d0 _ _ h; exact h
  | cons d rest ih =>
    intro s d0 hall hd0 h
    have hd : d.tool_call_id = X := hall d (List.mem_cons_self _ _)
    have hstep := c1_inv_step s d X d0.toContent hd
      (by simp [ToolEventData.toContent, hd0]) h.1 h.2
    rw [List.getLastD_cons]
    show countToolEntries
        (foldEvents (handleEvent s (.tool d)).1
          (rest.map AgentEvent.tool)).1.messages X = 1 ∧ _
    exact ih (handleEvent s (.tool d)).1 d
      (fun x hx => hall x (List.mem_cons_of_mem d hx)) hd hstep

/-- C1: folding a nonempty sequence of tool events that all share one
`tool_call_id` into a transcript not yet containing that id (and whose
tracked live tool, if any, has a different id) yields exactly one
ToolCall entry for that id — top-level or nested in a step — whose fields
are those of the last event applied; and a further event with the id of
the now-tracked live tool mutates that entry in place (transcript length
and per-id entry counts unchanged) rather than appending a duplicate. -/
theorem c1_tool_dedup (s : ChatState) (X : String)
    (evs : List ToolEventData) (hne : evs ≠ [])
    (hall : ∀ d ∈ evs, d.tool_call_id = X)
    (h0 : countToolEntries s.messages X = 0)
    (hlt : lastToolIdOf s ≠ some X) :
    countToolEntries
        (foldEvents s (evs.map AgentEvent.tool)).1.messages X = 1 ∧
      (∃ L, (foldEvents s (evs.map AgentEvent.tool)).1.lastTool = some L ∧
        toolAt (foldEvents s (evs.map AgentEvent.tool)).1.messages L =
          some ((evs.getLast hne).toContent)) ∧
      (∀ d2 : ToolEventData, d2.tool_call_id = X →
        (handleToolEvent (foldEvents s (evs.map AgentEvent.tool)).1
              d2).1.messages.length =
            (foldEvents s (evs.map AgentEvent.tool)).1.messages.length ∧
          countToolEntries
            (handleToolEvent (foldEvents s (evs.map AgentEvent.tool)).1
              d2).1.messages X = 1) := by
  cases evs with
  | nil => exact absurd rfl hne
  | cons d rest =>
    have hd : d.tool_call_id = X := hall d (List.mem_cons_self _ _)
    have hbase : countToolEntries
          (handleEvent s (.tool d)).1.messages X = 1 ∧
        ∃ L, (handleEvent s (.tool d)).1.lastTool = some L ∧
          toolAt (handleEvent s (.tool d)).1.messages L =
            some d.toContent :=
      c1_inv_base s d X hd h0 hlt
    have hfold := c1_inv_fold X rest (handleEvent s (.tool d)).1 d
      (fun x hx => hall x (List.mem_cons_of_mem d hx)) hd hbase
    have hlastc : (rest.getLastD d).toContent.tool_call_id = X := by
      show (rest.getLastD d).tool_call_id = X
      exact getLastD_id X rest d
        (fun x hx => hall x (List.mem_cons_of_mem d hx)) hd
    refine ⟨?_, ?_, ?_⟩
    · exact hfold.1
    · show ∃ L, (foldEvents (handleEvent s (.tool d)).1
          (rest.map AgentEvent.tool)).1.lastTool = some L ∧
        toolAt (foldEvents (handleEvent s (.tool d)).1
            (rest.map AgentEvent.tool)).1.messages L =
          some (((d :: rest).getLast hne).toContent)
      rw [List.getLast_eq_getLastD]
      exact hfold.2
    · intro d2 hd2
      show (handleToolEvent (foldEvents (handleEvent s (.tool d)).1
              (rest.map AgentEvent.tool)).1 d2).1.messages.length =
          (foldEvents (handleEvent s (.tool d)).1
            (rest.map AgentEvent.tool)).1.messages.length ∧
        countToolEntries (handleToolEvent
          (foldEvents (handleEvent s (.tool d)).1
            (rest.map AgentEvent.tool)).1 d2).1.messages X = 1
      obtain ⟨L, hL, hAt⟩ := hfold.2
      obtain ⟨hm, _⟩ := handleToolEvent_update
        (foldEvents (handleEvent s (.tool d)).1
          (rest.map AgentEvent.tool)).1 d2
        ((rest.getLastD d).toContent) L hL hAt (by rw [hlastc, hd2])
      constructor
      · rw [hm, length_setToolAt]
      · rw [hm, count_setToolAt_same _ L d2.toContent
          ((rest.getLastD d).toContent) X hAt
          (by rw [hlastc]; exact hd2.symm)]
        exact hfold.1

/-- Witness for C1: a calling/called pair with one id folded from the
initial state leaves exactly one entry, and a third same-id event keeps
both the transcript length and the count. -/
theorem c1_tool_dedup_witness :
    countToolEntries (foldEvents createInitialState
        ([⟨"t1", "shell", "exec", "a", none, "calling", 1, "e1"⟩,
          ⟨"t1", "shell", "exec", "a", some "ok", "called", 2,
            "e2"⟩].map AgentEvent.tool)).1.messages "t1" = 1 ∧
      (handleToolEvent (foldEvents createInitialState
          ([⟨"t1", "shell", "exec", "a", none, "calling", 1, "e1"⟩,
            ⟨"t1", "shell", "exec", "a", some "ok", "called", 2,
              "e2"⟩].map AgentEvent.tool)).1
        ⟨"t1", "shell", "exec", "a", some "again", "called", 3,
          "e3"⟩).1.messages.length =
      (foldEvents createInitialState
          ([⟨"t1", "shell", "exec", "a", none, "calling", 1, "e1"⟩,
            ⟨"t1", "shell", "exec", "a", some "ok", "called", 2,
              "e2"⟩].map AgentEvent.tool)).1.messages.length :=
  ⟨(c1_tool_dedup createInitialState "t1"
      [⟨"t1", "shell", "exec", "a", none, "calling", 1, "e1"⟩,
       ⟨"t1", "shell", "exec", "a", some "ok", "called", 2, "e2"⟩]
      (by decide) (by decide) (by decide) (by decide)).1,
   ((c1_tool_dedup createInitialState "t1"
      [⟨"t1", "shell", "exec", "a", none, "calling", 1, "e1"⟩,
       ⟨"t1", "shell", "exec", "a", some "ok", "called", 2, "e2"⟩]
      (by decide) (by decide) (by decide) (by decide)).2.2
      ⟨"t1", "shell", "exec", "a", some "again", "called", 3, "e3"⟩
      (by decide)).1⟩

/-- C4: replaying a session's historical event list through
`restoreSession` yields the same transcript, plan, title and resume
cursor as folding the same events live, triggers no inspector
`showToolPanel` notification, re-enables real-time mode afterwards, and —
when the fetched status is RUNNING or PENDING — issues the empty-message
re-attach chat call (the channel open with the replayed cursor). -/
theorem c4_replay_equivalence (s : ChatState) (resp : GetSessionResponse)
    (now : Int) (h : isFalsyStr s.sessionId = false) :
    (restoreSession s resp now).1.messages =
        (foldEvents { s with realTime := true } resp.events).1.messages ∧
      (restoreSession s resp now).1.plan =
        (foldEvents { s with realTime := true } resp.events).1.plan ∧
      (restoreSession s resp now).1.title =
        (foldEvents { s with realTime := true } resp.events).1.title ∧
      (restoreSession s resp now).1.lastEventId =
        (foldEvents { s with realTime := true } resp.events).1.lastEventId ∧
      (∀ t b, Action.showToolPanel t b ∉ (restoreSession s resp now).2) ∧
      (restoreSession s resp now).1.realTime = true ∧
      ((resp.status = SessionStatus.running ∨
          resp.status = SessionStatus.pending) →
        Action.openChannel
            ((foldEvents { s with realTime := false }
              resp.events).1.lastEventId) "" [] ∈
          (restoreSession s resp now).2) := by
  rw [restoreSession_eq s resp now h]
  have e1 := foldEvents_fst_realTime resp.events s false
  have e2 := foldEvents_fst_realTime resp.events s true
  by_cases hst : resp.status = SessionStatus.running ∨
      resp.status = SessionStatus.pending
  · simp only [if_pos hst]
    refine ⟨?_, ?_, ?_, ?_, ?_, ?_, fun _ => ?_⟩
    · rw [e1, e2]
    · rw [e1, e2]
    · rw [e1, e2]
    · rw [e1, e2]
    · intro t b
      cases hcc : s.cancelCurrentChat <;> simp [hcc]
    · trivial
    · cases hcc : s.cancelCurrentChat <;> simp [hcc]
  · simp only [if_neg hst]
    refine ⟨?_, ?_, ?_, ?_, ?_, ?_, fun hst2 => absurd hst2 hst⟩
    · rw [e1, e2]
    · rw [e1, e2]
    · rw [e1, e2]
    · rw [e1, e2]
    · intro t b
      simp
    · trivial

/-- Witness for C4 at a RUNNING session with one historical `done`
event. -/
theorem c4_replay_equivalence_witness :
    (restoreSession { createInitialState with sessionId := some "s1" }
          ⟨SessionStatus.running, [AgentEvent.done "e1"]⟩ 0).1.lastEventId =
        some "e1" ∧
      Action.openChannel (some "e1") "" [] ∈
        (restoreSession { createInitialState with sessionId := some "s1" }
          ⟨SessionStatus.running, [AgentEvent.done "e1"]⟩ 0).2 :=
  ⟨(c4_replay_equivalence { createInitialState with sessionId := some "s1" }
      ⟨SessionStatus.running, [AgentEvent.done "e1"]⟩ 0 (by decide)).2.2.2.1,
   (c4_replay_equivalence { createInitialState with sessionId := some "s1" }
      ⟨SessionStatus.running, [AgentEvent.done "e1"]⟩ 0
      (by decide)).2.2.2.2.2.2 (Or.inl rfl)⟩

/-- A clicked historical tool for the live-flag analysis: `called`, and
its timestamp is the present moment in the second-resolution convention
the client itself uses for outgoing messages
(`Math.floor(Date.now() / 1000)` at 2025-10-09 09:33:20 UTC). -/
def c9Tool : ToolContent :=
  { tool_call_id := "t1", name := "browser", function := "browser_navigate",
    args := "\x7b\x7d", content := some "ok", status := "called",
    timestamp := 1760000000 }

/-- The state at the click: the tool is the tracked last non-`message`
tool of an active session. -/
def c9State : ChatState :=
  { createInitialState with
      sessionId := some "s1"
      lastNoMessageTool := some c9Tool }

/-- Value of `Date.now()` (milliseconds) at the same instant. -/
def c9NowMs : Int := 1760000000000

/-- C9: the code compares the tool's second-resolution timestamp against
`Date.now() - 5 * 60 * 1000`, a millisecond clock; for a matching
last-no-message tool whose timestamp is the present instant (squarely
inside the claimed 5-minute window in second units), `isLiveTool` is
nevertheless `false`, and the click pins the inspector with a dead live
flag. -/
theorem c9_live_flag_code_behavior :
    isLiveTool c9State c9Tool c9NowMs = false ∧
      c9Tool.status ≠ "calling" ∧
      isLastNoMessageTool c9State c9Tool = true ∧
      c9NowMs / 1000 - 5 * 60 < c9Tool.timestamp ∧
      c9Tool.timestamp ≤ c9NowMs - 5 * 60 * 1000 ∧
      (handleToolClick c9State c9Tool c9NowMs).2 =
        [Action.showToolPanel c9Tool false] ∧
      (handleToolClick c9State c9Tool c9NowMs).1.realTime = false := by
  refine ⟨by decide, by decide, by decide, by decide, by decide, by decide,
    by decide⟩

/-- C2: in the scenario `step{running}`, `tool A`, `tool B`,
`step{completed}`, `tool C` (distinct ids), A and B end up nested in the
step entry, the step's status is completed, and C is a top-level entry;
in general a fresh tool is nested into the last step exactly while that
step is running, and appended top-level otherwise. -/
theorem c2_step_nesting :
    (∀ (sd sd2 : StepEventData) (a b c : ToolEventData),
        sd.status = "running" → sd2.status = "completed" →
        a.tool_call_id ≠ b.tool_call_id → b.tool_call_id ≠ c.tool_call_id →
        (foldEvents createInitialState
            [.step sd, .tool a, .tool b, .step sd2, .tool c]).1.messages =
          [.step { id := sd.id, description := sd.description,
                   status := "completed",
                   tools := [a.toContent, b.toContent] },
           .tool c.toContent]) ∧
    (∀ (s : ChatState) (d : ToolEventData) (i : Nat) (st : StepContent),
        lastToolIdOf s ≠ some d.tool_call_id →
        getLastStep s.messages = some (i, st) → st.status = "running" →
        (handleToolEvent s d).1.messages =
          s.messages.set i
            (.step { st with tools := st.tools ++ [d.toContent] })) ∧
    (∀ (s : ChatState) (d : ToolEventData),
        lastToolIdOf s ≠ some d.tool_call_id →
        (∀ i st, getLastStep s.messages = some (i, st) →
          st.status ≠ "running") →
        (handleToolEvent s d).1.messages =
          s.messages ++ [.tool d.toContent]) := by
  refine ⟨?_, ?_, ?_⟩
  · intro sd sd2 a b c hrun hcomp hab hbc
    simp [foldEvents, handleEvent, handleStepEvent_eq, handleToolEvent_fst,
      placeTool, placeNew, getLastStep, toolAt, hrun, hcomp, hab, hbc,
      createInitialState, List.set, ToolEventData.toContent]
  · intro s d i st hlt hg hrun
    rw [handleToolEvent_fst]
    show (placeTool s.messages s.lastTool d.toContent).1 = _
    cases hL : s.lastTool with
    | none => simp [placeTool, placeNew, hg, hrun]
    | some L =>
      have hcond : ¬ ((toolAt s.messages L).map ToolContent.tool_call_id =
          some d.toContent.tool_call_id) := by
        simpa [lastToolIdOf, hL] using hlt
      simp [placeTool, placeNew, hcond, hg, hrun]
  · intro s d hlt hns
    rw [handleToolEvent_fst]
    show (placeTool s.messages s.lastTool d.toContent).1 = _
    have hnew : (placeNew s.messages d.toContent).1 =
        s.messages ++ [Entry.tool d.toContent] := by
      cases hg : getLastStep s.messages with
      | some p =>
        obtain ⟨i, st⟩ := p
        simp [placeNew, hg, hns i st hg]
      | none => simp [placeNew, hg]
    cases hL : s.lastTool with
    | none => simpa [placeTool] using hnew
    | some L =>
      have hcond : ¬ ((toolAt s.messages L).map ToolContent.tool_call_id =
          some d.toContent.tool_call_id) := by
        simpa [lastToolIdOf, hL] using hlt
      simpa [placeTool, hcond] using hnew

/-- Witness for C2 at concrete payloads. -/
theorem c2_step_nesting_witness :
    (foldEvents createInitialState
        [.step ⟨"s1", "phase", "running", "e1"⟩,
         .tool ⟨"ta", "shell", "exec", "x", none, "calling", 1, "e2"⟩,
         .tool ⟨"tb", "shell", "exec", "y", some "ok", "called", 2, "e3"⟩,
         .step ⟨"s1", "phase", "completed", "e4"⟩,
         .tool ⟨"tc", "browser", "nav", "z", none, "calling", 3,
           "e5"⟩]).1.messages =
      [.step { id := "s1", description := "phase", status := "completed",
               tools :=
                 [⟨"ta", "shell", "exec", "x", none, "calling", 1⟩,
                  ⟨"tb", "shell", "exec", "y", some "ok", "called", 2⟩] },
       .tool ⟨"tc", "browser", "nav", "z", none, "calling", 3⟩] :=
  c2_step_nesting.1 ⟨"s1", "phase", "running", "e1"⟩
    ⟨"s1", "phase", "completed", "e4"⟩
    ⟨"ta", "shell", "exec", "x", none, "calling", 1, "e2"⟩
    ⟨"tb", "shell", "exec", "y", some "ok", "called", 2, "e3"⟩
    ⟨"tc", "browser", "nav", "z", none, "calling", 3, "e5"⟩
    rfl rfl (by decide) (by decide)

/-- C3: every folded event, regardless of kind, advances the resume cursor
`lastEventId` to that event's own `event_id`; hence after folding any
nonempty sequence the cursor equals the last event's id, including when
the last event is a `done` or `wait` event. -/
theorem c3_resume_cursor_advances :
    (∀ (s : ChatState) (e : AgentEvent),
        (handleEvent s e).1.lastEventId = some e.eventId) ∧
    (∀ (s : ChatState) (evs : List AgentEvent) (h : evs ≠ []),
        (foldEvents s evs).1.lastEventId = some ((evs.getLast h).eventId)) := by
  constructor
  · intro s e
    rfl
  · intro s evs
    induction evs generalizing s with
    | nil => intro h; exact absurd rfl h
    | cons e rest ih =>
      intro h
      cases rest with
      | nil => rfl
      | cons e2 rest2 =>
        show (foldEvents (handleEvent s e).1 (e2 :: rest2)).1.lastEventId = _
        rw [ih (handleEvent s e).1 (List.cons_ne_nil e2 rest2)]
        simp [List.getLast_cons]

/-- Witness for C3 at a concrete two-event sequence ending in `wait`. -/
theorem c3_resume_cursor_advances_witness :
    (foldEvents createInitialState
        [AgentEvent.done "evt-1", AgentEvent.wait "evt-2"]).1.lastEventId =
      some "evt-2" :=
  c3_resume_cursor_advances.2 createInitialState
    [AgentEvent.done "evt-1", AgentEvent.wait "evt-2"]
    (List.cons_ne_nil _ _)

/-- C10: a `done` event (and likewise `wait`) changes nothing but the
resume cursor — in particular it does not clear the loading indicator;
the indicator is cleared only by a failed step or an `error` event within
the reducer, or by the channel's close/error callbacks. -/
theorem c10_done_wait_frame :
    (∀ (s : ChatState) (i : String),
        handleEvent s (.done i) = ({ s with lastEventId := some i }, []) ∧
        handleEvent s (.wait i) = ({ s with lastEventId := some i }, [])) ∧
    (∀ (s : ChatState) (e : AgentEvent),
        (handleEvent s e).1.isLoading ≠ s.isLoading →
          (∃ d, e = .step d ∧ d.status = "failed") ∨ ∃ d, e = .error d) ∧
    (∀ s : ChatState, (chatOnClose s).isLoading = false ∧
        (chatOnError s).1.isLoading = false) := by
  refine ⟨fun s i => ⟨rfl, rfl⟩, fun s e h => ?_, fun s => ⟨rfl, rfl⟩⟩
  rcases handleEvent_isLoading s e with heq | ⟨_, hc⟩
  · exact absurd heq h
  · exact hc

/-- Witness for C10: a `done` event arriving while loading leaves the
indicator set, and a failed step does clear it. -/
theorem c10_done_wait_frame_witness :
    handleEvent { createInitialState with isLoading := true }
        (.done "evt-9") =
      ({ createInitialState with
          isLoading := true
          lastEventId := some "evt-9" }, []) ∧
    ((∃ d, AgentEvent.step ⟨"s1", "desc", "failed", "evt-8"⟩ =
          AgentEvent.step d ∧ d.status = "failed") ∨
      ∃ d, AgentEvent.step ⟨"s1", "desc", "failed", "evt-8"⟩ =
          AgentEvent.error d) := by
  constructor
  · exact (c10_done_wait_frame.1 { createInitialState with isLoading := true }
      "evt-9").1
  · exact c10_done_wait_frame.2.1
      { createInitialState with isLoading := true }
      (AgentEvent.step ⟨"s1", "desc", "failed", "evt-8"⟩) (by decide)

end ManusAI
